import Mathlib

/-!
Verification development for git-pile (src/git_pile/git_pile.py).

The Python source is shallowly embedded below.  Strings are Lean strings;
Python string primitives (strip, split, slicing, startswith, endswith) are
modelled character-exactly over the underlying character lists, with
structural recursion so that every definition evaluates inside the kernel.
Filesystem paths are modelled by their basenames (all patch files of one
pile live in a single flat directory); the contents of an output directory
are modelled by the Pile structure.  The external git binary is modelled by
explicit function parameters (rev-list output, format-patch rendering,
git-am application, worktree listing), which the callers of the embedded
functions instantiate.
-/

/-! ## Python string primitives -/

/-- Python str.strip() on a character list: drop whitespace from both ends. -/
def pyStripL (s : List Char) : List Char :=
  ((s.dropWhile Char.isWhitespace).reverse.dropWhile Char.isWhitespace).reverse

/-- Python str.strip(). -/
def pyStrip (s : String) : String := ⟨pyStripL s.data⟩

/-- Worker for splitting on a single separator character, Python str.split(sep). -/
def pySplitCharGo (sep : Char) : List Char → List Char → List (List Char)
  | [], acc => [acc.reverse]
  | c :: rest, acc =>
    if c = sep then acc.reverse :: pySplitCharGo sep rest []
    else pySplitCharGo sep rest (c :: acc)

/-- Python str.split(sep) for a one-character separator sep. -/
def pySplitChar (sep : Char) (s : String) : List String :=
  (pySplitCharGo sep s.data []).map String.mk

/-- Worker for Python str.split("..")): scan left to right, a ".." occurrence
ends the current field and is consumed whole. -/
def splitDotDotGo : List Char → List Char → List (List Char)
  | '.' :: '.' :: rest, acc => acc.reverse :: splitDotDotGo rest []
  | c :: rest, acc => splitDotDotGo rest (c :: acc)
  | [], acc => [acc.reverse]

/-- Python commit_range.split(".."). -/
def pySplitDotDot (s : String) : List String :=
  (splitDotDotGo s.data []).map String.mk

/-- Python s.startswith(p). -/
def pyStartsWith (s p : String) : Bool := p.data.isPrefixOf s.data

/-- Python s.endswith(p). -/
def pyEndsWith (s p : String) : Bool := p.data.isSuffixOf s.data

/-- Python s[:i], including the negative-index convention. -/
def pySliceTo (s : String) (i : Int) : String :=
  if i < 0 then ⟨s.data.take (s.data.length - (-i).toNat)⟩ else ⟨s.data.take i.toNat⟩

/-- Python s[n:] for a nonnegative n. -/
def pySliceFrom (s : String) (n : Nat) : String := ⟨s.data.drop n⟩

/-! ## Commit Range Resolver: parse_commit_range

The git backend is abstracted by a resolution predicate: resolve r is true
exactly when the external call git rev-parse r succeeds.  fatal is modelled
as an error value carrying the printed message. -/

/-- Embedding of parse_commit_range.  Python: an empty commit_range string is
falsy, so the defaults are returned with no checking; otherwise the string
must split on ".." into exactly two parts (a ValueError from unpacking is
caught by the same handler as a failed rev-parse) and both endpoints must
resolve. -/
def parse_commit_range (resolve : String → Bool) (commit_range default_begin default_end : String) :
    Except String (String × String) :=
  if commit_range = "" then Except.ok (default_begin, default_end)
  else
    match pySplitDotDot commit_range with
    | [base, result] =>
      if resolve base then
        if resolve result then Except.ok (base, result)
        else Except.error ("Invalid commit range: " ++ commit_range)
      else Except.error ("Invalid commit range: " ++ commit_range)
    | _ => Except.error ("Invalid commit range: " ++ commit_range)

/-! ## Patch Series Generator: fix_duplicate_patch_name and genpatches

The destination directory is modelled by the Pile structure: the set of
.patch files it holds (as an association list from filename to patch
document text, in series order after a successful generation), the lines of
its series manifest, and the BASELINE value recorded in its config file
(update_baseline writes BASELINE=rev where rev is git rev-parse of the
commit; reading it back in cmd_genbranch recovers exactly rev, so the
config file is modelled by that value directly). -/

/-- On-disk contents of a pile/output directory. -/
structure Pile where
  files : List (String × String)
  seriesLines : List String
  baseline : Option String
  deriving Repr, DecidableEq

instance {ε α : Type} [DecidableEq ε] [DecidableEq α] : DecidableEq (Except ε α) := fun x y =>
  match x, y with
  | Except.ok a, Except.ok b => if h : a = b then isTrue (by rw [h]) else isFalse (by simp [h])
  | Except.error a, Except.error b =>
    if h : a = b then isTrue (by rw [h]) else isFalse (by simp [h])
  | Except.ok _, Except.error _ => isFalse (by simp)
  | Except.error _, Except.ok _ => isFalse (by simp)

/-- The exception message raised by fix_duplicate_patch_name. -/
def watMsg (path : String) (max_retries : Nat) : String :=
  "wat!?! " ++ path ++ " (max_retries=" ++ toString max_retries ++ ")"

/-- Loop body of fix_duplicate_patch_name.  dest is the set of filenames
already present in the destination directory, path the original path (used
in the exception message), l the length of the original basename (Python
fixes l before the loop), mr the max_retries bound, fn the current candidate
and n the current counter.  Python:

  while op.exists(op.join(dest, fn)):
      n += 1
      if n > max_retries:
          raise Exception("wat!?! %s (max_retries=%d)" % (path, max_retries))
      fn = "%s-%d.patch" % (fn[:l - 6], n)

To keep the recursion structural (so that the definition evaluates inside
the kernel), the loop carries gas = mr - n (truncated subtraction) alongside
n; the raise condition n + 1 > mr of the source is exactly gas = 0 under
that invariant, which every caller establishes by passing gas = mr - n. -/
def fix_dup_go (dest : List String) (path : String) (l : Nat) (mr : Nat) :
    String → Nat → Nat → Except String String
  | fn, n, gas =>
    if fn ∈ dest then
      match gas with
      | 0 => Except.error (watMsg path mr)
      | g + 1 =>
        fix_dup_go dest path l mr
          (pySliceTo fn ((l : Int) - 6) ++ "-" ++ toString (n + 1) ++ ".patch") (n + 1) g
    else Except.ok fn

/-- Embedding of fix_duplicate_patch_name.  Paths are modelled by basenames,
so op.basename is the identity and the returned op.join(dest, fn) is fn
itself.  A raised Exception is the error case.  The loop starts at n = 1,
hence with gas = max_retries - 1. -/
def fix_duplicate_patch_name (dest : List String) (path : String) (max_retries : Nat) :
    Except String String :=
  fix_dup_go dest path path.length max_retries path 1 (max_retries - 1)

/-- Errors surfaced by genpatches.  emptyRange is the fatal
"No commits in range %s"; renderFailed models a git format-patch invocation
whose CalledProcessError propagates out of the run wrapper; namingExhausted
is the exception raised by fix_duplicate_patch_name. -/
inductive GenErr where
  | emptyRange (range : String)
  | renderFailed (commit : String)
  | namingExhausted (msg : String)
  deriving Repr, DecidableEq

/-- The commit enumeration of genpatches:
  git("rev-list --reverse %s..%s").stdout.strip().split("\n").
Note that this is never the empty list: split always returns at least one
(possibly empty) field. -/
def commitListOf (stdout : String) : List String :=
  pySplitChar '\n' (pyStrip stdout)

/-- The per-commit loop of genpatches: render each commit into the staging
subdirectory (render c gives the default basename chosen by git format-patch
together with the patch document text, or none when the git invocation
fails), resolve filename collisions against the files already moved into the
temporary directory, and move the file there.  Returns the series as
(filename, document) pairs in commit order. -/
def genLoop (render : String → Option (String × String)) (mr : Nat) :
    List String → List String → Except GenErr (List (String × String))
  | [], _ => Except.ok []
  | c :: cs, existing =>
    match render c with
    | none => Except.error (GenErr.renderFailed c)
    | some (fn, doc) =>
      match fix_duplicate_patch_name existing fn mr with
      | Except.error m => Except.error (GenErr.namingExhausted m)
      | Except.ok fn2 =>
        match genLoop render mr cs (fn2 :: existing) with
        | Except.error e => Except.error e
        | Except.ok rest => Except.ok ((fn2, doc) :: rest)

/-- Embedding of genpatches.  revParse models git rev-parse (update_baseline
stores the rev-parsed base commit); render models git format-patch on a
single commit; revListStdout is the captured stdout of git rev-list
--reverse base..result; dest is the current state of the output directory.
Returns the outcome together with the final state of the output directory:
all staging work happens in a temporary directory, and only after every
document has been produced are the old .patch files removed, the new ones
copied in, the series manifest overwritten (header comment, blank line, one
basename per line) and the baseline updated.  Filesystem permission
failures during that final replace are not modelled. -/
def genpatches (revParse : String → String) (render : String → Option (String × String))
    (revListStdout : String) (base_commit : String) (result_commit : String) (dest : Pile) :
    Except GenErr Unit × Pile :=
  let commit_list := commitListOf revListStdout
  if commit_list = [] then
    (Except.error (GenErr.emptyRange (base_commit ++ ".." ++ result_commit)), dest)
  else
    match genLoop render commit_list.length commit_list [] with
    | Except.error e => (Except.error e, dest)
    | Except.ok series =>
      (Except.ok (),
       { files := series,
         seriesLines := "# Auto-generated by git-pile" :: "" :: series.map Prod.fst,
         baseline := some (revParse base_commit) })

/-- The stem a colliding filename is rebuilt from: fn[: len(fn) - 6], i.e.
the original basename with the six characters of ".patch" cut off. -/
def patchStem (path : String) : String := pySliceTo path ((path.length : Int) - 6)

/-- The k-th alternative filename tried for a colliding basename. -/
def candName (path : String) (k : Nat) : String :=
  patchStem path ++ "-" ++ toString k ++ ".patch"

/-! ## Branch Reconstructor: cmd_genbranch

The reconstruction run is a pure function of: the patch application backend
(git am; none models a CalledProcessError, i.e. a conflict or malformed
patch), the output of git worktree list --porcelain (as lines), the target
branch name, the current rev-parse of the base branch, the tree/commit the
temporary worktree starts at (the base branch tip), and the pile directory
contents.  Its observable outcome is collected in GBResult. -/

/-- Parsing of one series-manifest line by cmd_genbranch:
  l = l.strip(); skip if empty or l.startswith("#"); else keep l.
startswith of the one-character string "#" is prefix-of on the characters. -/
def seriesEntryOf (l : String) : Option String :=
  let t := pyStrip l
  if t = "" then none
  else if pyStartsWith t "#" then none
  else some t

/-- The patch filenames listed by a series manifest, in order. -/
def seriesEntries (lines : List String) : List String := lines.filterMap seriesEntryOf

/-- A patch filename of ordinary shape: no surrounding whitespace, nonempty,
not a comment line, no embedded newline (so that writing it as a manifest
line and reading the manifest back line by line is the identity).  Every
filename git format-patch produces has this shape. -/
def GoodName (fn : String) : Prop :=
  pyStrip fn = fn ∧ fn ≠ "" ∧ pyStartsWith fn "#" = false ∧ '\n' ∉ fn.data

instance (fn : String) : Decidable (GoodName fn) := by
  unfold GoodName
  infer_instance

/-- The fatal message of cmd_genbranch for a manifest entry whose patch file
does not exist (the source prints the path joined with the pile directory;
paths are modelled by basenames). -/
def missingPatchMsg (p : String) : String :=
  "series file reference " ++ p ++ ", but it does not exist"

/-- The series existence pre-check of cmd_genbranch: walk the manifest
entries in order and resolve each against the files present on disk,
failing fatally at the first entry whose file is missing.  On success,
returns the patch documents in manifest order. -/
def collectPatches (files : List (String × String)) : List String → Except String (List String)
  | [] => Except.ok []
  | e :: es =>
    match files.lookup e with
    | none => Except.error (missingPatchMsg e)
    | some doc =>
      match collectPatches files es with
      | Except.error msg => Except.error msg
      | Except.ok docs => Except.ok (doc :: docs)

/-- The git am loop of cmd_genbranch: apply the documents in order inside
the temporary worktree starting from the base tree.  Returns how many
applications succeeded, and the final head on full success (none as soon as
one application fails, which in the source is a propagated
CalledProcessError that tears the worktree down). -/
def applyAll (applyPatch : String → String → Option String) :
    String → List String → Nat × Option String
  | tree, [] => (0, some tree)
  | tree, p :: ps =>
    match applyPatch tree p with
    | none => (0, none)
    | some t =>
      let r := applyAll applyPatch t ps
      (r.1 + 1, r.2)

/-- Worker for git_worktree_get_checkout_path: walk the porcelain output
line by line keeping a key/value state for the current block (an assignment
shadows an older one, so the state list is consulted front-first and
extended at the front); an empty line ends a block, and a block whose
branch value is refs/heads/BRANCH answers with its worktree value.  Python
reads state["worktree"]; porcelain blocks always carry a worktree line, and
a (malformed) block without one is modelled as no answer. -/
def git_worktree_get_checkout_path_go (branch : String) :
    List String → List (String × Option String) → Option String
  | [], _ => none
  | l :: ls, state =>
    if l = "" then
      if (state.lookup "branch").join = some ("refs/heads/" ++ branch) then
        (state.lookup "worktree").join
      else git_worktree_get_checkout_path_go branch ls []
    else
      let v := pySplitChar ' ' l
      git_worktree_get_checkout_path_go branch ls ((v.headD "", v.get? 1) :: state)

/-- Embedding of git_worktree_get_checkout_path.  out is the stdout of
git -C root worktree list --porcelain, already split on newlines. -/
def git_worktree_get_checkout_path (out : List String) (branch : String) : Option String :=
  git_worktree_get_checkout_path_go branch out []

/-- The fatal message of cmd_genbranch when the target branch is checked
out elsewhere. -/
def busyBranchMsg (branch path : String) : String :=
  "final result is PILE_RESULT_HEAD but branch " ++ branch ++
    " could not be updated to it because it is checked out at " ++ path

/-- Observable outcome of one cmd_genbranch run.  exitZero is whether the
process finishes with status 0 (a propagated git am failure also ends
nonzero); warned records the baseline-drift warning print; worktreeOpened
records whether the temporary worktree scope was entered; appliedCount how
many patches git am consumed; resultHead the contents written to
.git/PILE_RESULT_HEAD (none: file untouched); branchSet the commit the
target branch ref was forced to (none: ref untouched); fatalMsg the fatal /
error diagnostic, if any. -/
structure GBResult where
  exitZero : Bool
  warned : Bool
  worktreeOpened : Bool
  appliedCount : Nat
  resultHead : Option String
  branchSet : Option String
  fatalMsg : Option String
  deriving Repr, DecidableEq

/-- Embedding of cmd_genbranch.  Steps, in source order: read the recorded
baseline (pile.baseline) and compare against the fresh rev-parse of the
base branch (newBaseline), printing a warning on drift; parse the series
manifest and check every listed patch file exists, fatal on the first
missing one (before any worktree is created or patch applied); open a
temporary worktree at the base branch (baseTree) and git am every patch in
manifest order; copy the resulting HEAD to PILE_RESULT_HEAD
unconditionally after a fully successful application; then refuse with a
nonzero return if the target branch is checked out in another worktree,
leaving the branch ref unmoved; otherwise force the branch to the new
head. -/
def cmd_genbranch (applyPatch : String → String → Option String) (worktreeOut : List String)
    (branch newBaseline baseTree : String) (pile : Pile) : GBResult :=
  let warned := pile.baseline != some newBaseline
  match collectPatches pile.files (seriesEntries pile.seriesLines) with
  | Except.error msg =>
    { exitZero := false, warned := warned, worktreeOpened := false, appliedCount := 0,
      resultHead := none, branchSet := none, fatalMsg := some msg }
  | Except.ok patches =>
    match applyAll applyPatch baseTree patches with
    | (n, none) =>
      { exitZero := false, warned := warned, worktreeOpened := true, appliedCount := n,
        resultHead := none, branchSet := none, fatalMsg := none }
    | (n, some head) =>
      match git_worktree_get_checkout_path worktreeOut branch with
      | some path =>
        { exitZero := false, warned := warned, worktreeOpened := true, appliedCount := n,
          resultHead := some head, branchSet := none, fatalMsg := some (busyBranchMsg branch path) }
      | none =>
        { exitZero := true, warned := warned, worktreeOpened := true, appliedCount := n,
          resultHead := some head, branchSet := some head, fatalMsg := none }

/-! ## Incremental Diff Extractor: cmd_format_patch

The core of cmd_format_patch after genpatches has regenerated the series
inside the temporary worktree and the staged diff has been computed.  Its
inputs are: changed_files, the (status letter, new path) pairs produced by
parse_raw_diff from the --raw section of the staged diff (parse_raw_diff
lives in the helpers module, which is not part of this source file; its
output shape is taken from the interface the source consumes); diff, the
remaining lines of the diff body; and the lines of the freshly generated
series manifest in the worktree. -/

/-- Errors of the format-patch selection: nothingChanged is the fatal
"Nothing changed from ..."; unknownState the fatal
"Unknown state in diff ..." for a .patch path with an unrecognized status
letter. -/
inductive FPErr where
  | nothingChanged
  | unknownState (action : Char) (fn : String)
  deriving Repr, DecidableEq

/-- Observable output of cmd_format_patch: the patch count announced by the
cover letter (always emitted on success, before any patch file), and the
emitted patch filenames in emission order. -/
structure FPOut where
  coverPatchCount : Nat
  outputs : List String
  deriving Repr, DecidableEq

/-- The selection loop of cmd_format_patch, in source order per entry: a
Deleted entry is skipped; a path not ending in .patch is skipped; a
remaining entry with status in "RACMT" is collected; anything else is
fatal. -/
def selectPatches : List (Char × String) → Except FPErr (List String)
  | [] => Except.ok []
  | (action, fn) :: rest =>
    if action = 'D' then selectPatches rest
    else if pyEndsWith fn ".patch" = false then selectPatches rest
    else if action ∈ ['R', 'A', 'C', 'M', 'T'] then
      match selectPatches rest with
      | Except.error e => Except.error e
      | Except.ok ps => Except.ok (fn :: ps)
    else Except.error (FPErr.unknownState action fn)

/-- Embedding of get_series_linenum_dict: one dict entry per line of the
series file, mapping the line (Python strips the trailing newline with
l[:-1]; lines are already newline-free in this model) to its 0-based line
number.  The dict is modelled as the association list in insertion order. -/
def get_series_linenum_dict (lines : List String) : List (String × Nat) :=
  lines.enum.map (fun p => (p.2, p.1))

/-- Python dict get with default: the latest binding of the key wins. -/
def pyDictGetD (d : List (String × Nat)) (k : String) (dflt : Nat) : Nat :=
  (d.reverse.lookup k).getD dflt

/-- The sort key of cmd_format_patch: series.get(p, 0). -/
def seriesKey (d : List (String × Nat)) (p : String) : Nat := pyDictGetD d p 0

/-- Python "%04d" formatting of a positive patch number. -/
def pad4 (n : Nat) : String :=
  let s := toString n
  if s.length < 4 then ⟨List.replicate (4 - s.length) '0' ++ s.data⟩ else s

/-- The output filename of the i-th emitted patch (i 0-based):
"%04d-%s" % (i + 1, p[5:]) -- a fresh sequential number replacing the five
characters of the stable "0001-" prefix git format-patch gave the file
inside the pile. -/
def renameForOutput (i : Nat) (p : String) : String :=
  pad4 (i + 1) ++ "-" ++ pySliceFrom p 5

/-- Embedding of the tail of cmd_format_patch: fatal if the staged diff
body is empty; select the changed patch documents; sort them by position
in the fresh manifest (patches.sort(key=...) is a stable sort by the key
with missing keys defaulting to 0; every stable sort by a total key
produces the same list, here modelled by insertion sort, which is stable
because each element is inserted before the first element it is
less-or-equal to); emit the cover letter announcing the patch count, then
the documents renamed with sequential 1-based zero-padded numbers. -/
def cmd_format_patch (changed_files : List (Char × String)) (diff : List String)
    (tmpSeriesLines : List String) : Except FPErr FPOut :=
  if diff = [] then Except.error FPErr.nothingChanged
  else
    match selectPatches changed_files with
    | Except.error e => Except.error e
    | Except.ok patches =>
      let series := get_series_linenum_dict tmpSeriesLines
      let sorted :=
        patches.insertionSort (fun a b => seriesKey series a ≤ seriesKey series b)
      Except.ok { coverPatchCount := sorted.length,
                  outputs := sorted.enum.map (fun ip => renameForOutput ip.1 ip.2) }

/-! ## C3: the empty-range guard is dead code -/

theorem pySplitCharGo_ne_nil (sep : Char) (s acc : List Char) : pySplitCharGo sep s acc ≠ [] := by
  induction s generalizing acc with
  | nil => simp [pySplitCharGo]
  | cons c rest ih =>
    unfold pySplitCharGo
    by_cases h : c = sep
    · simp [h]
    · simp only [if_neg h]
      exact ih _

theorem commitListOf_ne_nil (stdout : String) : commitListOf stdout ≠ [] := by
  unfold commitListOf pySplitChar
  intro h
  exact pySplitCharGo_ne_nil '\n' (pyStrip stdout).data [] (by simpa using h)

theorem genLoop_no_emptyRange (render : String → Option (String × String)) (mr : Nat)
    (cs existing : List String) (r : String) :
    genLoop render mr cs existing ≠ Except.error (GenErr.emptyRange r) := by
  induction cs generalizing existing with
  | nil => simp [genLoop]
  | cons c rest ih =>
    unfold genLoop
    rcases render c with _ | ⟨fn, doc⟩
    · simp
    · simp only []
      rcases fix_duplicate_patch_name existing fn mr with m | fn2
      · simp
      · simp only []
        rcases h : genLoop render mr rest (fn2 :: existing) with e | ok
        · intro hc
          injection hc with he
          exact ih (fn2 :: existing) (he ▸ h)
        · simp

/-- C3 -- Empty-range failure cannot happen as specified: the guard
"if not commit_list: fatal('No commits in range ...')" in genpatches is dead
code.  git rev-list prints nothing for an empty range, but
"".strip().split("\n") is [''] (split always returns at least one field), a
nonempty, truthy list, so genpatches never fails with the empty-range fatal
-- for an empty range it instead proceeds and invokes git format-patch on
the empty-string commit id.  Formally: the enumerated commit list is never
empty, and no run of genpatches returns the emptyRange error. -/
theorem genpatches_emptyRange_unreachable :
    (∀ stdout : String, commitListOf stdout ≠ []) ∧
    (∀ (revParse : String → String) (render : String → Option (String × String))
       (stdout base result : String) (dest : Pile) (r : String),
      (genpatches revParse render stdout base result dest).1 ≠
        Except.error (GenErr.emptyRange r)) := by
  refine ⟨commitListOf_ne_nil, ?_⟩
  intro revParse render stdout base result dest r
  unfold genpatches
  simp only [if_neg (commitListOf_ne_nil stdout)]
  rcases h : genLoop render (commitListOf stdout).length (commitListOf stdout) [] with e | ok
  · intro hc
    have hc2 : Except.error (ε := GenErr) (α := Unit) e =
        Except.error (GenErr.emptyRange r) := hc
    injection hc2 with he
    exact genLoop_no_emptyRange render _ _ _ r (he ▸ h)
  · simp

/-- Witness for C3, evaluating the embedded genpatches at the failing input:
an empty rev-list output (empty commit range).  The commit list computes to
[""], the guard does not fire, and with a rendering backend on which
format-patch of the empty commit id fails, the run ends with that
subprocess failure, not with the no-commits fatal; the claimed emptyRange
error is also shown unreachable at this input via the theorem. -/
theorem genpatches_emptyRange_unreachable_witness :
    commitListOf "" = [""] ∧
    commitListOf "" ≠ [] ∧
    genpatches id (fun _ => none) "" "base" "result" ⟨[], [], none⟩ =
      (Except.error (GenErr.renderFailed ""), ⟨[], [], none⟩) ∧
    (genpatches id (fun _ => none) "" "base" "result" ⟨[], [], none⟩).1 ≠
      Except.error (GenErr.emptyRange "base..result") := by
  constructor
  · decide
  constructor
  · exact genpatches_emptyRange_unreachable.1 ""
  constructor
  · simp [genpatches, genLoop, commitListOf, pyStrip, pyStripL, pySplitChar, pySplitCharGo]
  · exact genpatches_emptyRange_unreachable.2 id (fun _ => none) "" "base" "result"
      ⟨[], [], none⟩ "base..result"

/-! ## C2: atomicity of generation -/

/-- C2 -- Atomicity of generation: whenever genpatches fails before the
final replace step (the possible failures being commit enumeration, patch
rendering, or collision renaming -- every error the function can return),
the destination directory is left exactly as it was: all intermediate work
happens in the private staging (temporary) directory, and the destination
is only rewritten on the all-success path. -/
theorem genpatches_error_leaves_dest_untouched
    (revParse : String → String) (render : String → Option (String × String))
    (stdout base result : String) (dest : Pile) (e : GenErr)
    (h : (genpatches revParse render stdout base result dest).1 = Except.error e) :
    (genpatches revParse render stdout base result dest).2 = dest := by
  unfold genpatches at h ⊢
  by_cases hg : commitListOf stdout = []
  · simp [hg]
  · simp only [if_neg hg] at h ⊢
    rcases hl : genLoop render (commitListOf stdout).length (commitListOf stdout) [] with e2 | ok
    · simp
    · simp only [hl] at h
      exact absurd h (by simp)

/-- Witness for C2: a concrete one-commit run whose format-patch invocation
fails; the destination pile (holding one old patch, a manifest and a
baseline) is returned unchanged. -/
theorem genpatches_error_leaves_dest_untouched_witness :
    (genpatches id (fun _ => none) "c1" "b" "r"
        ⟨[("0001-old.patch", "OLD")], ["# hdr", "", "0001-old.patch"], some "base0"⟩).1 =
      Except.error (GenErr.renderFailed "c1") ∧
    (genpatches id (fun _ => none) "c1" "b" "r"
        ⟨[("0001-old.patch", "OLD")], ["# hdr", "", "0001-old.patch"], some "base0"⟩).2 =
      ⟨[("0001-old.patch", "OLD")], ["# hdr", "", "0001-old.patch"], some "base0"⟩ := by
  have h1 : (genpatches id (fun _ => none) "c1" "b" "r"
      ⟨[("0001-old.patch", "OLD")], ["# hdr", "", "0001-old.patch"], some "base0"⟩).1 =
      Except.error (GenErr.renderFailed "c1") := by
    simp [genpatches, genLoop, commitListOf, pyStrip, pyStripL, pySplitChar, pySplitCharGo]
  exact ⟨h1, genpatches_error_leaves_dest_untouched id (fun _ => none) "c1" "b" "r"
    ⟨[("0001-old.patch", "OLD")], ["# hdr", "", "0001-old.patch"], some "base0"⟩
    (GenErr.renderFailed "c1") h1⟩

/-! ## C5: duplicate-name resolution -/

theorem patchStem_data_length (path : String) (hl : 6 ≤ path.length) :
    (patchStem path).data.length = path.length - 6 := by
  have h0 : (0 : Int) ≤ (path.length : Int) - 6 := by omega
  unfold patchStem pySliceTo
  rw [if_neg (by omega)]
  simp only [List.length_take]
  have : ((path.length : Int) - 6).toNat = path.length - 6 := by omega
  rw [this]
  have : path.data.length = path.length := rfl
  omega

theorem pySliceTo_append_of_data (s stem : String) (l : Nat) (hl : 6 ≤ l)
    (hlen : stem.data.length = l - 6) (r : List Char) (hs : s.data = stem.data ++ r) :
    pySliceTo s ((l : Int) - 6) = stem := by
  unfold pySliceTo
  rw [if_neg (by omega)]
  have ht : ((l : Int) - 6).toNat = l - 6 := by omega
  rw [ht, hs, List.take_left' hlen]

theorem fix_dup_go_error_msg (dest : List String) (path : String) (l mr : Nat) :
    ∀ (gas : Nat) (fn : String) (n : Nat) (m : String),
      fix_dup_go dest path l mr fn n gas = Except.error m → m = watMsg path mr := by
  intro gas
  induction gas with
  | zero =>
    intro fn n m h
    unfold fix_dup_go at h
    by_cases hm : fn ∈ dest
    · simp [hm] at h; exact h.symm
    · simp [hm] at h
  | succ g ih =>
    intro fn n m h
    unfold fix_dup_go at h
    by_cases hm : fn ∈ dest
    · simp only [if_pos hm] at h
      exact ih _ _ _ h
    · simp [hm] at h

theorem fix_dup_go_ok_shape (dest : List String) (path : String) (l mr : Nat) (stem : String)
    (hl : 6 ≤ l) (hlen : stem.data.length = l - 6) :
    ∀ (gas : Nat) (fn : String) (n : Nat) (fn' : String),
      pySliceTo fn ((l : Int) - 6) = stem →
      (gas + n ≤ mr ∨ gas = 0) →
      fix_dup_go dest path l mr fn n gas = Except.ok fn' →
      fn' ∉ dest ∧
        (fn' = fn ∨ ∃ k, n + 1 ≤ k ∧ k ≤ mr ∧ fn' = stem ++ "-" ++ toString k ++ ".patch") := by
  intro gas
  induction gas with
  | zero =>
    intro fn n fn' _ _ h
    unfold fix_dup_go at h
    by_cases hm : fn ∈ dest
    · simp [hm] at h
    · simp only [if_neg hm] at h
      injection h with he
      exact ⟨he ▸ hm, Or.inl he.symm⟩
  | succ g ih =>
    intro fn n fn' hstem hgas h
    unfold fix_dup_go at h
    by_cases hm : fn ∈ dest
    · simp only [if_pos hm] at h
      have hgas' : g + 1 + n ≤ mr := by
        rcases hgas with h1 | h1
        · exact h1
        · omega
      have hstem' :
          pySliceTo (pySliceTo fn ((l : Int) - 6) ++ "-" ++ toString (n + 1) ++ ".patch")
            ((l : Int) - 6) = stem := by
        rw [hstem]
        refine pySliceTo_append_of_data _ _ l hl hlen
          ("-".data ++ (toString (n + 1)).data ++ ".patch".data) ?_
        simp [String.data_append, List.append_assoc]
      have := ih _ (n + 1) fn' hstem' (Or.inl (by omega)) h
      refine ⟨this.1, Or.inr ?_⟩
      rcases this.2 with he | ⟨k, hk1, hk2, hk3⟩
      · exact ⟨n + 1, le_refl _, by omega, by rw [he, hstem]⟩
      · exact ⟨k, by omega, hk2, hk3⟩
    · simp only [if_neg hm] at h
      injection h with he
      exact ⟨he ▸ hm, Or.inl he.symm⟩

theorem fix_dup_go_exhaust (dest : List String) (path : String) (l mr : Nat) (stem : String)
    (hl : 6 ≤ l) (hlen : stem.data.length = l - 6) :
    ∀ (gas : Nat) (fn : String) (n : Nat),
      pySliceTo fn ((l : Int) - 6) = stem →
      fn ∈ dest →
      (gas + n ≤ mr ∨ gas = 0) →
      (∀ k, n + 1 ≤ k → k ≤ mr → (stem ++ "-" ++ toString k ++ ".patch") ∈ dest) →
      fix_dup_go dest path l mr fn n gas = Except.error (watMsg path mr) := by
  intro gas
  induction gas with
  | zero =>
    intro fn n _ hm _ _
    unfold fix_dup_go
    simp [hm]
  | succ g ih =>
    intro fn n hstem hm hgas hcand
    unfold fix_dup_go
    simp only [if_pos hm]
    have hgas' : g + 1 + n ≤ mr := by
      rcases hgas with h1 | h1
      · exact h1
      · omega
    have hstem' :
        pySliceTo (pySliceTo fn ((l : Int) - 6) ++ "-" ++ toString (n + 1) ++ ".patch")
          ((l : Int) - 6) = stem := by
      rw [hstem]
      refine pySliceTo_append_of_data _ _ l hl hlen
        ("-".data ++ (toString (n + 1)).data ++ ".patch".data) ?_
      simp [String.data_append, List.append_assoc]
    refine ih _ (n + 1) hstem' ?_ (Or.inl (by omega)) ?_
    · rw [hstem]
      exact hcand (n + 1) (le_refl _) (by omega)
    · intro k hk1 hk2
      exact hcand k (by omega) hk2

theorem fix_dup_go_ok_not_mem (dest : List String) (path : String) (l mr : Nat) :
    ∀ (gas : Nat) (fn : String) (n : Nat) (fn' : String),
      fix_dup_go dest path l mr fn n gas = Except.ok fn' → fn' ∉ dest := by
  intro gas
  induction gas with
  | zero =>
    intro fn n fn' h
    unfold fix_dup_go at h
    by_cases hm : fn ∈ dest
    · simp [hm] at h
    · simp only [if_neg hm] at h
      injection h with he
      exact he ▸ hm
  | succ g ih =>
    intro fn n fn' h
    unfold fix_dup_go at h
    by_cases hm : fn ∈ dest
    · simp only [if_pos hm] at h
      exact ih _ _ _ h
    · simp only [if_neg hm] at h
      injection h with he
      exact he ▸ hm

theorem fix_duplicate_patch_name_ok_not_mem (dest : List String) (path : String) (mr : Nat)
    (fn' : String) (h : fix_duplicate_patch_name dest path mr = Except.ok fn') : fn' ∉ dest :=
  fix_dup_go_ok_not_mem dest path path.length mr (mr - 1) path 1 fn' h

/-- Freshness of the whole generated series: every chosen filename is new,
so the filename list is duplicate-free and disjoint from the names already
present when the loop started. -/
theorem genLoop_names_fresh (render : String → Option (String × String)) (mr : Nat) :
    ∀ (cs existing : List String) (ps : List (String × String)),
      genLoop render mr cs existing = Except.ok ps →
      (ps.map Prod.fst).Nodup ∧ ∀ fn ∈ ps.map Prod.fst, fn ∉ existing := by
  intro cs
  induction cs with
  | nil =>
    intro existing ps h
    unfold genLoop at h
    injection h with he
    subst he
    simp
  | cons c rest ih =>
    intro existing ps h
    unfold genLoop at h
    rcases hr : render c with _ | ⟨fn, doc⟩
    · rw [hr] at h; exact absurd h (by simp)
    · rw [hr] at h
      dsimp only [] at h
      rcases hf : fix_duplicate_patch_name existing fn mr with m | fn2
      · rw [hf] at h; exact absurd h (by simp)
      · rw [hf] at h
        dsimp only [] at h
        rcases hg : genLoop render mr rest (fn2 :: existing) with e | ps' <;> rw [hg] at h
        · exact absurd h (by simp)
        · injection h with he
          subst he
          have hrest := ih (fn2 :: existing) ps' hg
          have hfresh := fix_duplicate_patch_name_ok_not_mem existing fn mr fn2 hf
          constructor
          · refine List.nodup_cons.mpr ⟨?_, hrest.1⟩
            intro hmem
            exact (hrest.2 fn2 hmem) (List.mem_cons_self _ _)
          · intro g hg2
            rcases List.mem_cons.mp hg2 with he2 | he2
            · exact he2 ▸ hfresh
            · intro hcontra
              exact hrest.2 g he2 (List.mem_cons_of_mem _ hcontra)

/-- C5 -- Duplicate-name resolution.  Three facts about the collision
resolver (for any basename of plausible shape, i.e. at least as long as its
".patch" suffix):
(1) a successful resolution returns a filename that does not yet exist in
the destination, and it is either the original name or the original stem
with an increasing numeric suffix "-k" (2 <= k <= max_retries) inserted
before the .patch extension -- the retry counter, hence the number of rename
retries, never exceeds max_retries, which genpatches instantiates with the
number of commits in the range;
(2) if the original name and every suffixed candidate up to the bound are
all taken, the resolver raises the naming-exhaustion exception (and any
error it ever raises is that exception);
(3) consequently a successful generation assigns pairwise distinct
filenames: the filename column of the pile written by genpatches is
duplicate-free, so two commits with colliding default names get two
distinct names. -/
theorem fix_duplicate_patch_name_spec :
    (∀ (dest : List String) (path : String) (mr : Nat) (fn' : String),
      6 ≤ path.length →
      fix_duplicate_patch_name dest path mr = Except.ok fn' →
      fn' ∉ dest ∧ (fn' = path ∨ ∃ k, 2 ≤ k ∧ k ≤ mr ∧ fn' = candName path k)) ∧
    (∀ (dest : List String) (path : String) (mr : Nat),
      6 ≤ path.length → path ∈ dest →
      (∀ k, 2 ≤ k → k ≤ mr → candName path k ∈ dest) →
      fix_duplicate_patch_name dest path mr = Except.error (watMsg path mr)) ∧
    (∀ (dest : List String) (path : String) (mr : Nat) (m : String),
      fix_duplicate_patch_name dest path mr = Except.error m → m = watMsg path mr) ∧
    (∀ (revParse : String → String) (render : String → Option (String × String))
       (stdout base result : String) (dest P : Pile),
      genpatches revParse render stdout base result dest = (Except.ok (), P) →
      (P.files.map Prod.fst).Nodup) := by
  refine ⟨?_, ?_, ?_, ?_⟩
  · intro dest path mr fn' hl h
    have := fix_dup_go_ok_shape dest path path.length mr (patchStem path) hl
      (patchStem_data_length path hl) (mr - 1) path 1 fn' rfl (by omega) h
    exact ⟨this.1, by simpa [candName] using this.2⟩
  · intro dest path mr hl hmem hcand
    exact fix_dup_go_exhaust dest path path.length mr (patchStem path) hl
      (patchStem_data_length path hl) (mr - 1) path 1 rfl hmem (by omega)
      (fun k hk1 hk2 => hcand k hk1 hk2)
  · intro dest path mr m h
    exact fix_dup_go_error_msg dest path path.length mr (mr - 1) path 1 m h
  · intro revParse render stdout base result dest P h
    unfold genpatches at h
    by_cases hc : commitListOf stdout = []
    · rw [if_pos hc] at h
      exact absurd (congrArg Prod.fst h) (by simp)
    · rw [if_neg hc] at h
      rcases hg : genLoop render (commitListOf stdout).length (commitListOf stdout) [] with e | s <;>
        rw [hg] at h
      · exact absurd (congrArg Prod.fst h) (by simp)
      · have hP : P.files = s := by
          have := congrArg Prod.snd h
          simp only [] at this
          rw [← this]
        rw [hP]
        exact (genLoop_names_fresh render _ _ [] s hg).1

/-- Witness for C5 at concrete inputs: resolving "0001-a.patch" against a
directory already holding it and its "-2" variant yields the fresh
"0001-a-3.patch" (k = 3 <= max_retries = 3); with max_retries = 2 the same
directory exhausts the retries and raises; and a concrete two-commit
generation in which both commits render to the same default basename
produces two distinct filenames. -/
theorem fix_duplicate_patch_name_spec_witness :
    fix_duplicate_patch_name ["0001-a.patch", "0001-a-2.patch"] "0001-a.patch" 3 =
      Except.ok "0001-a-3.patch" ∧
    ("0001-a-3.patch" ∉ ["0001-a.patch", "0001-a-2.patch"] ∧
      ("0001-a-3.patch" = "0001-a.patch" ∨
        ∃ k, 2 ≤ k ∧ k ≤ 3 ∧ "0001-a-3.patch" = candName "0001-a.patch" k)) ∧
    fix_duplicate_patch_name ["0001-a.patch", "0001-a-2.patch"] "0001-a.patch" 2 =
      Except.error (watMsg "0001-a.patch" 2) ∧
    (genpatches id (fun c => some ("0001-a.patch", "doc " ++ c)) "c1\nc2" "b" "r"
        ⟨[], [], none⟩).2.files.map Prod.fst = ["0001-a.patch", "0001-a-2.patch"] ∧
    (["0001-a.patch", "0001-a-2.patch"] : List String).Nodup := by
  refine ⟨by decide, ?_, ?_, by decide, by decide⟩
  · exact fix_duplicate_patch_name_spec.1 ["0001-a.patch", "0001-a-2.patch"] "0001-a.patch" 3
      "0001-a-3.patch" (by decide) (by decide)
  · exact fix_duplicate_patch_name_spec.2.1 ["0001-a.patch", "0001-a-2.patch"] "0001-a.patch" 2
      (by decide) (by decide) (fun k hk1 hk2 => by
        interval_cases k
        · decide)

/-! ## C4: manifest completeness and order -/

/-- Inversion of a successful genpatches run: the per-commit loop succeeded
and produced exactly the files of the output pile, whose manifest is the
header comment, a blank line, and the filenames in order, and whose
baseline is the rev-parsed base commit. -/
theorem genpatches_ok_inv (revParse : String → String)
    (render : String → Option (String × String)) (stdout base result : String) (dest P : Pile)
    (h : genpatches revParse render stdout base result dest = (Except.ok (), P)) :
    genLoop render (commitListOf stdout).length (commitListOf stdout) [] = Except.ok P.files ∧
    P.seriesLines = "# Auto-generated by git-pile" :: "" :: P.files.map Prod.fst ∧
    P.baseline = some (revParse base) := by
  unfold genpatches at h
  rw [if_neg (commitListOf_ne_nil stdout)] at h
  rcases hg : genLoop render (commitListOf stdout).length (commitListOf stdout) [] with e | s <;>
    rw [hg] at h
  · exact absurd (congrArg Prod.fst h) (by simp)
  · have hsnd := congrArg Prod.snd h
    dsimp only [] at hsnd
    subst hsnd
    exact ⟨rfl, rfl, rfl⟩

theorem seriesEntryOf_goodName (fn : String) (h : GoodName fn) : seriesEntryOf fn = some fn := by
  obtain ⟨h1, h2, h3, _⟩ := h
  unfold seriesEntryOf
  rw [h1, if_neg h2, h3]
  simp

/-- The manifest genpatches writes parses back (by the reader in
cmd_genbranch) to exactly the written filename list, provided every
filename is of ordinary shape. -/
theorem filterMap_seriesEntryOf_good (names : List String)
    (hgood : ∀ fn ∈ names, GoodName fn) :
    names.filterMap seriesEntryOf = names := by
  induction names with
  | nil => rfl
  | cons fn rest ih =>
    rw [List.filterMap_cons, seriesEntryOf_goodName fn (hgood fn (List.mem_cons_self _ _)),
      ih (fun g hg => hgood g (List.mem_cons_of_mem _ hg))]

theorem seriesEntries_of_generated (names : List String)
    (hgood : ∀ fn ∈ names, GoodName fn) :
    seriesEntries ("# Auto-generated by git-pile" :: "" :: names) = names := by
  unfold seriesEntries
  rw [List.filterMap_cons, List.filterMap_cons,
    show seriesEntryOf "# Auto-generated by git-pile" = none from by decide,
    show seriesEntryOf "" = none from by decide]
  dsimp only []
  exact filterMap_seriesEntryOf_good names hgood

/-- Each position of the generated series corresponds to the commit at the
same position of the enumeration: same count, and the document at index i
is the rendering of commit i. -/
theorem genLoop_correspond (render : String → Option (String × String)) (mr : Nat) :
    ∀ (cs existing : List String) (ps : List (String × String)),
      genLoop render mr cs existing = Except.ok ps →
      ps.length = cs.length ∧
      ∀ i (h : i < cs.length), ∃ fn doc fn2,
        render (cs.get ⟨i, h⟩) = some (fn, doc) ∧ ps[i]? = some (fn2, doc) := by
  intro cs
  induction cs with
  | nil =>
    intro existing ps h
    unfold genLoop at h
    injection h with he
    subst he
    exact ⟨rfl, fun i hi => absurd hi (by simp)⟩
  | cons c rest ih =>
    intro existing ps h
    unfold genLoop at h
    rcases hr : render c with _ | ⟨fn, doc⟩
    · rw [hr] at h; exact absurd h (by simp)
    · rw [hr] at h
      dsimp only [] at h
      rcases hf : fix_duplicate_patch_name existing fn mr with m | fn2
      · rw [hf] at h; exact absurd h (by simp)
      · rw [hf] at h
        dsimp only [] at h
        rcases hg : genLoop render mr rest (fn2 :: existing) with e | ps' <;> rw [hg] at h
        · exact absurd h (by simp)
        · injection h with he
          subst he
          obtain ⟨hlen, hcorr⟩ := ih (fn2 :: existing) ps' hg
          refine ⟨by simp [hlen], ?_⟩
          intro i hi
          match i with
          | 0 => exact ⟨fn, doc, fn2, hr, by simp⟩
          | i + 1 =>
            obtain ⟨fn', doc', fn2', hr', hp'⟩ := hcorr i (by simpa using hi)
            exact ⟨fn', doc', fn2', hr', by simpa using hp'⟩

/-- C4 -- Manifest completeness and order: a successful generation for a
range whose enumeration has N commits writes a manifest whose non-comment,
non-blank entries are exactly the N generated filenames, in order; entry i
names the file whose document is the rendering of commit i of the
oldest-first enumeration.  (The shape hypothesis on the generated filenames
holds for every name git format-patch can produce.) -/
theorem genpatches_manifest_complete_ordered (revParse : String → String)
    (render : String → Option (String × String)) (stdout base result : String) (dest P : Pile)
    (hgen : genpatches revParse render stdout base result dest = (Except.ok (), P))
    (hgood : ∀ fn ∈ P.files.map Prod.fst, GoodName fn) :
    seriesEntries P.seriesLines = P.files.map Prod.fst ∧
    (seriesEntries P.seriesLines).length = (commitListOf stdout).length ∧
    ∀ i (h : i < (commitListOf stdout).length), ∃ fn doc fn2,
      render ((commitListOf stdout).get ⟨i, h⟩) = some (fn, doc) ∧
      P.files[i]? = some (fn2, doc) := by
  obtain ⟨hloop, hlines, _⟩ := genpatches_ok_inv revParse render stdout base result dest P hgen
  obtain ⟨hlen, hcorr⟩ := genLoop_correspond render _ _ [] P.files hloop
  have hse : seriesEntries P.seriesLines = P.files.map Prod.fst := by
    rw [hlines]
    exact seriesEntries_of_generated _ hgood
  refine ⟨hse, ?_, hcorr⟩
  rw [hse, List.length_map, hlen]

/-- Witness for C4: a concrete two-commit range; the generated manifest has
exactly the two filenames, in commit order, and each entry holds the
corresponding rendered document. -/
theorem genpatches_manifest_complete_ordered_witness :
    (genpatches id (fun c => some ("0001-" ++ c ++ ".patch", "doc " ++ c)) "c1\nc2" "b" "r"
        ⟨[], [], none⟩) =
      (Except.ok (),
        ⟨[("0001-c1.patch", "doc c1"), ("0001-c2.patch", "doc c2")],
         ["# Auto-generated by git-pile", "", "0001-c1.patch", "0001-c2.patch"],
         some "b"⟩) ∧
    seriesEntries ["# Auto-generated by git-pile", "", "0001-c1.patch", "0001-c2.patch"] =
      ["0001-c1.patch", "0001-c2.patch"] ∧
    (seriesEntries ["# Auto-generated by git-pile", "", "0001-c1.patch", "0001-c2.patch"]).length =
      (commitListOf "c1\nc2").length := by
  have hgen : (genpatches id (fun c => some ("0001-" ++ c ++ ".patch", "doc " ++ c)) "c1\nc2"
      "b" "r" ⟨[], [], none⟩) =
      (Except.ok (),
        ⟨[("0001-c1.patch", "doc c1"), ("0001-c2.patch", "doc c2")],
         ["# Auto-generated by git-pile", "", "0001-c1.patch", "0001-c2.patch"],
         some "b"⟩) := by decide
  have h := genpatches_manifest_complete_ordered id
    (fun c => some ("0001-" ++ c ++ ".patch", "doc " ++ c)) "c1\nc2" "b" "r"
    ⟨[], [], none⟩
    ⟨[("0001-c1.patch", "doc c1"), ("0001-c2.patch", "doc c2")],
     ["# Auto-generated by git-pile", "", "0001-c1.patch", "0001-c2.patch"],
     some "b"⟩ hgen (by decide)
  exact ⟨hgen, h.1, h.2.1⟩

/-! ## C6: missing-patch precheck -/

theorem collectPatches_error_of_missing (files : List (String × String)) :
    ∀ es : List String, (∃ e ∈ es, files.lookup e = none) →
      ∃ e', e' ∈ es ∧ files.lookup e' = none ∧
        collectPatches files es = Except.error (missingPatchMsg e') := by
  intro es
  induction es with
  | nil => rintro ⟨e, he, _⟩; exact absurd he (by simp)
  | cons e es' ih =>
    rintro ⟨g, hg, hgl⟩
    rcases hl : files.lookup e with _ | doc
    · refine ⟨e, List.mem_cons_self _ _, hl, ?_⟩
      unfold collectPatches
      rw [hl]
    · have hg' : g ∈ es' := by
        rcases List.mem_cons.mp hg with he2 | he2
        · exact absurd hgl (by rw [he2, hl]; simp)
        · exact he2
      obtain ⟨e', he', hl', hc'⟩ := ih ⟨g, hg', hgl⟩
      refine ⟨e', List.mem_cons_of_mem _ he', hl', ?_⟩
      unfold collectPatches
      rw [hl, hc']

/-- C6 -- Missing-patch precheck: when some filename listed in the series
manifest has no patch file on disk, cmd_genbranch fails fatally with the
message naming the first such file, and it does so before any patch is
applied: no worktree is opened, zero patches are applied, PILE_RESULT_HEAD
is not written and the branch ref is not moved. -/
theorem cmd_genbranch_missing_patch_precheck (applyPatch : String → String → Option String)
    (worktreeOut : List String) (branch newBaseline baseTree : String) (pile : Pile)
    (e : String) (he : e ∈ seriesEntries pile.seriesLines)
    (hmiss : pile.files.lookup e = none) :
    ∃ e', e' ∈ seriesEntries pile.seriesLines ∧ pile.files.lookup e' = none ∧
      cmd_genbranch applyPatch worktreeOut branch newBaseline baseTree pile =
        { exitZero := false, warned := pile.baseline != some newBaseline,
          worktreeOpened := false, appliedCount := 0, resultHead := none, branchSet := none,
          fatalMsg := some (missingPatchMsg e') } := by
  obtain ⟨e', he', hl', hc'⟩ :=
    collectPatches_error_of_missing pile.files (seriesEntries pile.seriesLines) ⟨e, he, hmiss⟩
  refine ⟨e', he', hl', ?_⟩
  unfold cmd_genbranch
  rw [hc']

/-- Witness for C6: a manifest listing a second patch that is absent from
disk; reconstruction fails fatally naming it, with no worktree opened and
nothing applied or written. -/
theorem cmd_genbranch_missing_patch_precheck_witness :
    "0002-b.patch" ∈ seriesEntries (Pile.mk [("0001-a.patch", "A")]
      ["# hdr", "", "0001-a.patch", "0002-b.patch"] (some "base0")).seriesLines ∧
    (Pile.mk [("0001-a.patch", "A")]
      ["# hdr", "", "0001-a.patch", "0002-b.patch"] (some "base0")).files.lookup
        "0002-b.patch" = none ∧
    (∃ e', e' ∈ seriesEntries (Pile.mk [("0001-a.patch", "A")]
        ["# hdr", "", "0001-a.patch", "0002-b.patch"] (some "base0")).seriesLines ∧
      (Pile.mk [("0001-a.patch", "A")]
        ["# hdr", "", "0001-a.patch", "0002-b.patch"] (some "base0")).files.lookup e' = none ∧
      cmd_genbranch (fun t p => some (t ++ "|" ++ p)) [] "internal" "base0" "T0"
          (Pile.mk [("0001-a.patch", "A")]
            ["# hdr", "", "0001-a.patch", "0002-b.patch"] (some "base0")) =
        { exitZero := false, warned := false, worktreeOpened := false, appliedCount := 0,
          resultHead := none, branchSet := none,
          fatalMsg := some (missingPatchMsg e') }) := by
  refine ⟨by decide, by decide, ?_⟩
  have h := cmd_genbranch_missing_patch_precheck (fun t p => some (t ++ "|" ++ p)) []
    "internal" "base0" "T0"
    (Pile.mk [("0001-a.patch", "A")] ["# hdr", "", "0001-a.patch", "0002-b.patch"]
      (some "base0"))
    "0002-b.patch" (by decide) (by decide)
  obtain ⟨e', h1, h2, h3⟩ := h
  exact ⟨e', h1, h2, by rw [h3]; rfl⟩

/-! ## C7: busy-branch refusal -/

/-- C7 -- Busy-branch refusal: when every patch applies but the target
branch is checked out in another worktree, cmd_genbranch returns nonzero,
does not move the branch ref, and has still written the computed head to
PILE_RESULT_HEAD (the copy happens unconditionally before the check), while
reporting where the branch is checked out. -/
theorem cmd_genbranch_busy_branch (applyPatch : String → String → Option String)
    (worktreeOut : List String) (branch newBaseline baseTree : String) (pile : Pile)
    (patches : List String) (n : Nat) (head path : String)
    (hc : collectPatches pile.files (seriesEntries pile.seriesLines) = Except.ok patches)
    (ha : applyAll applyPatch baseTree patches = (n, some head))
    (hw : git_worktree_get_checkout_path worktreeOut branch = some path) :
    cmd_genbranch applyPatch worktreeOut branch newBaseline baseTree pile =
      { exitZero := false, warned := pile.baseline != some newBaseline, worktreeOpened := true,
        appliedCount := n, resultHead := some head, branchSet := none,
        fatalMsg := some (busyBranchMsg branch path) } := by
  unfold cmd_genbranch
  rw [hc]
  dsimp only []
  rw [ha]
  dsimp only []
  rw [hw]

/-- Witness for C7: one patch applies cleanly, but the porcelain worktree
listing shows the target branch checked out at another path; the run ends
nonzero with the branch unmoved and PILE_RESULT_HEAD holding the computed
head. -/
theorem cmd_genbranch_busy_branch_witness :
    collectPatches (Pile.mk [("0001-a.patch", "A")] ["# hdr", "", "0001-a.patch"]
        (some "base0")).files
      (seriesEntries (Pile.mk [("0001-a.patch", "A")] ["# hdr", "", "0001-a.patch"]
        (some "base0")).seriesLines) = Except.ok ["A"] ∧
    applyAll (fun t p => some (t ++ "|" ++ p)) "T0" ["A"] = (1, some "T0|A") ∧
    git_worktree_get_checkout_path
      ["worktree /home/user/other", "HEAD deadbeef", "branch refs/heads/internal", ""]
      "internal" = some "/home/user/other" ∧
    cmd_genbranch (fun t p => some (t ++ "|" ++ p))
        ["worktree /home/user/other", "HEAD deadbeef", "branch refs/heads/internal", ""]
        "internal" "base0" "T0"
        (Pile.mk [("0001-a.patch", "A")] ["# hdr", "", "0001-a.patch"] (some "base0")) =
      { exitZero := false, warned := false, worktreeOpened := true, appliedCount := 1,
        resultHead := some "T0|A", branchSet := none,
        fatalMsg := some (busyBranchMsg "internal" "/home/user/other") } := by
  refine ⟨by decide, by decide, by decide, ?_⟩
  have h := cmd_genbranch_busy_branch (fun t p => some (t ++ "|" ++ p))
    ["worktree /home/user/other", "HEAD deadbeef", "branch refs/heads/internal", ""]
    "internal" "base0" "T0"
    (Pile.mk [("0001-a.patch", "A")] ["# hdr", "", "0001-a.patch"] (some "base0"))
    ["A"] 1 "T0|A" "/home/user/other" (by decide) (by decide) (by decide)
  rw [h]; rfl

/-! ## C8: the no-changes check tests the whole diff, not the filtered set -/

theorem selectPatches_error_unknownState :
    ∀ (cf : List (Char × String)) (e : FPErr),
      selectPatches cf = Except.error e → ∃ a fn, e = FPErr.unknownState a fn := by
  intro cf
  induction cf with
  | nil => intro e h; exact absurd h (by simp [selectPatches])
  | cons p rest ih =>
    intro e h
    obtain ⟨action, fn⟩ := p
    unfold selectPatches at h
    by_cases hd : action = 'D'
    · rw [if_pos hd] at h; exact ih e h
    · rw [if_neg hd] at h
      by_cases hp : pyEndsWith fn ".patch" = false
      · rw [if_pos hp] at h; exact ih e h
      · rw [if_neg hp] at h
        by_cases hm : action ∈ ['R', 'A', 'C', 'M', 'T']
        · rw [if_pos hm] at h
          rcases hs : selectPatches rest with e2 | ps <;> rw [hs] at h
          · injection h with he; exact he ▸ ih e2 hs
          · exact absurd h (by simp)
        · rw [if_neg hm] at h
          injection h with he
          exact ⟨action, fn, he.symm⟩

/-- Counterexample for C8 as stated: a staged diff in which one patch file
was deleted and the series manifest was modified.  After dropping the
Deleted entry and the non-.patch path the remaining change set is empty,
yet cmd_format_patch does not fail with the no-changes fatal: the fatal
only tests whether the diff text as a whole is empty, so the run succeeds
and emits a cover document announcing zero patches. -/
theorem cmd_format_patch_filtered_empty_not_fatal :
    selectPatches [('D', "0001-old.patch"), ('M', "series")] = Except.ok [] ∧
    cmd_format_patch [('D', "0001-old.patch"), ('M', "series")]
        ["diff --git a/series b/series"] ["# hdr", "", "0001-a.patch"] =
      Except.ok { coverPatchCount := 0, outputs := [] } ∧
    cmd_format_patch [('D', "0001-old.patch"), ('M', "series")]
        ["diff --git a/series b/series"] ["# hdr", "", "0001-a.patch"] ≠
      Except.error FPErr.nothingChanged := by
  refine ⟨by decide, by decide, by decide⟩

/-- C8 (amended) -- No-changes failure: cmd_format_patch fails with the
no-changes fatal exactly when the staged diff as a whole is empty (nothing
at all changed between the recorded and the regenerated pile state), in
which case nothing is emitted; when the diff is nonempty but the change
set remaining after dropping Deleted entries and non-.patch paths is
empty, the run does not fail -- it emits a cover document announcing zero
patches (and no patch documents). -/
theorem cmd_format_patch_nothingChanged_iff (cf : List (Char × String)) (df ls : List String) :
    (cmd_format_patch cf df ls = Except.error FPErr.nothingChanged ↔ df = []) ∧
    (df ≠ [] → selectPatches cf = Except.ok [] →
      cmd_format_patch cf df ls = Except.ok { coverPatchCount := 0, outputs := [] }) := by
  constructor
  · constructor
    · intro h
      by_contra hdf
      unfold cmd_format_patch at h
      rw [if_neg hdf] at h
      rcases hs : selectPatches cf with e | ps <;> rw [hs] at h
      · obtain ⟨a, fn, he⟩ := selectPatches_error_unknownState cf e hs
        injection h with h2
        rw [he] at h2
        exact FPErr.noConfusion h2
      · exact absurd h (by simp)
    · intro h
      unfold cmd_format_patch
      rw [if_pos h]
  · intro hdf hsel
    unfold cmd_format_patch
    rw [if_neg hdf, hsel]
    rfl

/-- Witness for C8 (amended) at concrete inputs: an empty diff is exactly
the fatal case, and a nonempty diff whose filtered change set is empty
yields the zero-patch cover output. -/
theorem cmd_format_patch_nothingChanged_iff_witness :
    cmd_format_patch [] [] ["# hdr"] = Except.error FPErr.nothingChanged ∧
    cmd_format_patch [('D', "0001-old.patch"), ('M', "series")] ["some diff line"] ["# hdr"] =
      Except.ok { coverPatchCount := 0, outputs := [] } := by
  constructor
  · exact (cmd_format_patch_nothingChanged_iff [] [] ["# hdr"]).1.mpr rfl
  · exact (cmd_format_patch_nothingChanged_iff [('D', "0001-old.patch"), ('M', "series")]
      ["some diff line"] ["# hdr"]).2 (by decide) (by decide)

/-! ## C9: incremental-extraction output order and naming -/

/-- C9 -- Output order and naming of the incremental extraction: on any
successful run, the selected changed patch filenames are emitted sorted by
their position in the freshly generated manifest, a filename absent from
the manifest dictionary sorting with key 0 (hence before every listed one,
whose keys are positive in a generated manifest), and the i-th emitted
file (0-based) is named by the 1-based zero-padded sequential prefix
applied to the stable name with its first five characters (the "0001-"
prefix) cut off: "%04d-%s" % (i + 1, p[5:]). -/
theorem cmd_format_patch_order_naming (cf : List (Char × String)) (df ls : List String)
    (out : FPOut) (h : cmd_format_patch cf df ls = Except.ok out) :
    ∃ (patches sorted : List String), selectPatches cf = Except.ok patches ∧
      sorted.Perm patches ∧
      sorted.Pairwise (fun a b =>
        seriesKey (get_series_linenum_dict ls) a ≤ seriesKey (get_series_linenum_dict ls) b) ∧
      out.coverPatchCount = sorted.length ∧
      out.outputs = sorted.enum.map (fun ip => renameForOutput ip.1 ip.2) := by
  unfold cmd_format_patch at h
  by_cases hdf : df = []
  · rw [if_pos hdf] at h; exact absurd h (by simp)
  · rw [if_neg hdf] at h
    rcases hs : selectPatches cf with e | patches <;> rw [hs] at h
    · exact absurd h (by simp)
    · dsimp only [] at h
      injection h with he
      refine ⟨patches,
        patches.insertionSort (fun a b =>
          seriesKey (get_series_linenum_dict ls) a ≤ seriesKey (get_series_linenum_dict ls) b),
        rfl, List.perm_insertionSort _ _, ?_, by rw [← he], by rw [← he]⟩
      haveI : IsTotal String (fun a b =>
          seriesKey (get_series_linenum_dict ls) a ≤ seriesKey (get_series_linenum_dict ls) b) :=
        ⟨fun a b => Nat.le_total _ _⟩
      haveI : IsTrans String (fun a b =>
          seriesKey (get_series_linenum_dict ls) a ≤ seriesKey (get_series_linenum_dict ls) b) :=
        ⟨fun _ _ _ => Nat.le_trans⟩
      exact List.sorted_insertionSort _ _

/-- Witness for C9: two changed patches, one absent from the fresh manifest
(sorting first with key 0), one listed at line 3; the emitted names carry
the sequential prefixes 0001- and 0002- applied to the stable names with
their old five-character prefix dropped. -/
theorem cmd_format_patch_order_naming_witness :
    cmd_format_patch [('M', "0001-zz.patch"), ('A', "0001-new.patch")] ["x"]
        ["# Auto-generated by git-pile", "", "0001-new-other.patch", "0001-zz.patch"] =
      Except.ok { coverPatchCount := 2, outputs := ["0001-new.patch", "0002-zz.patch"] } ∧
    (∃ (patches sorted : List String),
      selectPatches [('M', "0001-zz.patch"), ('A', "0001-new.patch")] = Except.ok patches ∧
      sorted.Perm patches ∧
      sorted.Pairwise (fun a b =>
        seriesKey (get_series_linenum_dict
          ["# Auto-generated by git-pile", "", "0001-new-other.patch", "0001-zz.patch"]) a ≤
        seriesKey (get_series_linenum_dict
          ["# Auto-generated by git-pile", "", "0001-new-other.patch", "0001-zz.patch"]) b) ∧
      ({ coverPatchCount := 2,
         outputs := ["0001-new.patch", "0002-zz.patch"] } : FPOut).coverPatchCount =
        sorted.length ∧
      ({ coverPatchCount := 2,
         outputs := ["0001-new.patch", "0002-zz.patch"] } : FPOut).outputs =
        sorted.enum.map (fun ip => renameForOutput ip.1 ip.2)) := by
  refine ⟨by decide, ?_⟩
  exact cmd_format_patch_order_naming [('M', "0001-zz.patch"), ('A', "0001-new.patch")] ["x"]
    ["# Auto-generated by git-pile", "", "0001-new-other.patch", "0001-zz.patch"]
    { coverPatchCount := 2, outputs := ["0001-new.patch", "0002-zz.patch"] } (by decide)

/-! ## C1: round-trip from generation to reconstruction -/

theorem collectPatches_skip (fn doc : String) (files : List (String × String)) :
    ∀ es : List String, fn ∉ es →
      collectPatches ((fn, doc) :: files) es = collectPatches files es := by
  intro es
  induction es with
  | nil => intro _; rfl
  | cons e es' ih =>
    intro h
    have hne : e ≠ fn := fun hc => h (hc ▸ List.mem_cons_self _ _)
    have hl : List.lookup e ((fn, doc) :: files) = List.lookup e files := by
      simp [List.lookup, beq_eq_false_iff_ne.mpr hne]
    unfold collectPatches
    rw [hl, ih (fun hc => h (List.mem_cons_of_mem _ hc))]

/-- When the manifest lists exactly the files on disk, in order and without
duplicate names, the existence pre-check succeeds and returns the documents
in that order. -/
theorem collectPatches_of_nodup :
    ∀ files : List (String × String), (files.map Prod.fst).Nodup →
      collectPatches files (files.map Prod.fst) = Except.ok (files.map Prod.snd) := by
  intro files
  induction files with
  | nil => intro _; rfl
  | cons p rest ih =>
    intro hnd
    obtain ⟨fn, doc⟩ := p
    rw [List.map_cons] at hnd
    have hnd' := List.nodup_cons.mp hnd
    rw [List.map_cons, List.map_cons]
    unfold collectPatches
    have hl : List.lookup fn ((fn, doc) :: rest) = some doc := by simp [List.lookup]
    rw [hl, collectPatches_skip fn doc rest (rest.map Prod.fst) hnd'.1, ih hnd'.2]

/-- Applying a chain of documents that each take the i-th tree to the
(i+1)-th tree ends at the final tree, counting every application. -/
theorem applyAll_chain (applyPatch : String → String → Option String) (treeAt : Nat → String) :
    ∀ (qs : List String) (k : Nat),
      (∀ i (h : i < qs.length), applyPatch (treeAt (k + i)) (qs.get ⟨i, h⟩) =
        some (treeAt (k + i + 1))) →
      applyAll applyPatch (treeAt k) qs = (qs.length, some (treeAt (k + qs.length))) := by
  intro qs
  induction qs with
  | nil => intro k _; simp [applyAll]
  | cons p ps ih =>
    intro k hchain
    unfold applyAll
    have h0 : applyPatch (treeAt k) p = some (treeAt (k + 1)) := by
      have := hchain 0 (by simp)
      simpa using this
    rw [h0]
    have hrest : applyAll applyPatch (treeAt (k + 1)) ps =
        (ps.length, some (treeAt (k + 1 + ps.length))) := by
      refine ih (k + 1) ?_
      intro i hi
      have hc := hchain (i + 1) (by simpa using Nat.succ_lt_succ hi)
      rw [List.get_cons_succ] at hc
      have e1 : k + (i + 1) = k + 1 + i := by omega
      rw [e1] at hc
      exact hc
    dsimp only []
    rw [hrest]
    dsimp only []
    have harith : k + 1 + ps.length = k + (ps.length + 1) := by omega
    rw [List.length_cons, harith]

/-- C1 -- Round-trip: reconstruct from a freshly generated series.  treeAt
assigns to every position of the oldest-first enumeration of the range
(base, result] the tree of the corresponding commit: treeAt 0 is the tree
of the resolved base (where the reconstruction worktree starts) and
treeAt N, N the number of enumerated commits, is the tree of the range's
result tip.  The hypothesis happly states that nothing changed between
generation and reconstruction and no patch conflicts: applying the
rendering of commit i+1 on top of the tree of commit i reproduces the tree
of commit i+1, exactly the contract of format-patch followed by am.  Under
these conditions cmd_genbranch run on the freshly generated pile succeeds,
applies all N patches in manifest order, and both PILE_RESULT_HEAD and the
target branch end at treeAt N -- a tree identical to the original range's
result tip. -/
theorem genpatches_genbranch_roundtrip (revParse : String → String)
    (render : String → Option (String × String)) (applyPatch : String → String → Option String)
    (stdout base result : String) (dest P : Pile) (worktreeOut : List String)
    (branch newBaseline : String) (treeAt : Nat → String)
    (hgen : genpatches revParse render stdout base result dest = (Except.ok (), P))
    (hgood : ∀ fn ∈ P.files.map Prod.fst, GoodName fn)
    (happly : ∀ i (h : i < (commitListOf stdout).length), ∀ fn doc,
      render ((commitListOf stdout).get ⟨i, h⟩) = some (fn, doc) →
      applyPatch (treeAt i) doc = some (treeAt (i + 1)))
    (hfree : git_worktree_get_checkout_path worktreeOut branch = none) :
    cmd_genbranch applyPatch worktreeOut branch newBaseline (treeAt 0) P =
      { exitZero := true, warned := P.baseline != some newBaseline, worktreeOpened := true,
        appliedCount := (commitListOf stdout).length,
        resultHead := some (treeAt (commitListOf stdout).length),
        branchSet := some (treeAt (commitListOf stdout).length), fatalMsg := none } := by
  obtain ⟨hloop, hlines, _⟩ := genpatches_ok_inv revParse render stdout base result dest P hgen
  obtain ⟨hlen, hcorr⟩ := genLoop_correspond render _ _ [] P.files hloop
  have hnd := (genLoop_names_fresh render _ _ [] P.files hloop).1
  have hentries : seriesEntries P.seriesLines = P.files.map Prod.fst := by
    rw [hlines]
    exact seriesEntries_of_generated _ hgood
  have hcol : collectPatches P.files (seriesEntries P.seriesLines) =
      Except.ok (P.files.map Prod.snd) := by
    rw [hentries]
    exact collectPatches_of_nodup P.files hnd
  have hdocs : ∀ i (h : i < (P.files.map Prod.snd).length),
      applyPatch (treeAt (0 + i)) ((P.files.map Prod.snd).get ⟨i, h⟩) =
        some (treeAt (0 + i + 1)) := by
    intro i hi
    have hi' : i < (commitListOf stdout).length := by
      rw [← hlen]
      simpa using hi
    obtain ⟨fn, doc, fn2, hr, hp⟩ := hcorr i hi'
    have hget : (P.files.map Prod.snd).get ⟨i, hi⟩ = doc := by
      have h1 : (P.files.map Prod.snd)[i]? = some doc := by
        rw [List.getElem?_map, hp]
        rfl
      have h2 : (P.files.map Prod.snd)[i]? = some ((P.files.map Prod.snd).get ⟨i, hi⟩) :=
        List.getElem?_eq_getElem (by simpa using hi)
      rw [h1] at h2
      exact (Option.some.injEq _ _ ▸ h2).symm
    rw [hget]
    simpa using happly i hi' fn doc hr
  have happAll := applyAll_chain applyPatch treeAt (P.files.map Prod.snd) 0 hdocs
  have hlen2 : (P.files.map Prod.snd).length = (commitListOf stdout).length := by
    rw [List.length_map, hlen]
  unfold cmd_genbranch
  rw [hcol]
  dsimp only []
  rw [happAll]
  dsimp only []
  rw [hfree]
  rw [hlen2]
  simp

/-- Witness for C1: a concrete two-commit chain.  Rendering is injective per
commit, application replays each document on the previous tree, the branch
is free, and the reconstruction ends exactly at the tree of the second
commit. -/
theorem genpatches_genbranch_roundtrip_witness :
    (genpatches id (fun c => some ("0001-" ++ c ++ ".patch", "doc " ++ c)) "c1\nc2" "b" "r"
        ⟨[], [], none⟩).2 =
      ⟨[("0001-c1.patch", "doc c1"), ("0001-c2.patch", "doc c2")],
       ["# Auto-generated by git-pile", "", "0001-c1.patch", "0001-c2.patch"],
       some "b"⟩ ∧
    cmd_genbranch
        (fun t p => if t = "T0" ∧ p = "doc c1" then some "T1"
          else if t = "T1" ∧ p = "doc c2" then some "T2" else none)
        [] "internal" "b"
        "T0"
        ⟨[("0001-c1.patch", "doc c1"), ("0001-c2.patch", "doc c2")],
         ["# Auto-generated by git-pile", "", "0001-c1.patch", "0001-c2.patch"],
         some "b"⟩ =
      { exitZero := true, warned := false, worktreeOpened := true, appliedCount := 2,
        resultHead := some "T2", branchSet := some "T2", fatalMsg := none } := by
  refine ⟨by decide, ?_⟩
  have h := genpatches_genbranch_roundtrip id
    (fun c => some ("0001-" ++ c ++ ".patch", "doc " ++ c))
    (fun t p => if t = "T0" ∧ p = "doc c1" then some "T1"
      else if t = "T1" ∧ p = "doc c2" then some "T2" else none)
    "c1\nc2" "b" "r" ⟨[], [], none⟩
    ⟨[("0001-c1.patch", "doc c1"), ("0001-c2.patch", "doc c2")],
     ["# Auto-generated by git-pile", "", "0001-c1.patch", "0001-c2.patch"],
     some "b"⟩
    [] "internal" "b"
    (fun i => if i = 0 then "T0" else if i = 1 then "T1" else "T2")
    (by decide) (by decide)
    (by
      intro i hi fn doc hr
      rw [show (commitListOf "c1\nc2").length = 2 from by decide] at hi
      interval_cases i
      · have hc : (commitListOf "c1\nc2").get ⟨0, by decide⟩ = "c1" := by decide
        rw [hc] at hr
        have : fn = "0001-c1.patch" ∧ doc = "doc c1" := by
          have := hr
          simp at this
          exact ⟨this.1.symm, this.2.symm⟩
        rw [this.2]
        rfl
      · have hc : (commitListOf "c1\nc2").get ⟨1, by decide⟩ = "c2" := by decide
        rw [hc] at hr
        have : fn = "0001-c2.patch" ∧ doc = "doc c2" := by
          have := hr
          simp at this
          exact ⟨this.1.symm, this.2.symm⟩
        rw [this.2]
        rfl)
    (by decide)
  have hlen : (commitListOf "c1\nc2").length = 2 := by decide
  rw [hlen] at h
  exact h

/-- C10 -- Default ranges bypass validation: an absent (empty) range string
returns the caller-supplied defaults unchanged, whatever the resolution
predicate says (so no existence check is performed on them); any fatal
invalid-range error implies an explicit nonempty range string was supplied;
and an explicit string that does not split into exactly two ".."-separated
tokens is rejected with exactly the same fatal error as an unresolvable
endpoint. -/
theorem parse_commit_range_default_bypass :
    (∀ (resolve : String → Bool) (db de : String),
      parse_commit_range resolve "" db de = Except.ok (db, de)) ∧
    (∀ (resolve : String → Bool) (cr db de msg : String),
      parse_commit_range resolve cr db de = Except.error msg →
      cr ≠ "" ∧ msg = "Invalid commit range: " ++ cr) ∧
    (∀ (resolve : String → Bool) (cr db de : String),
      cr ≠ "" → (pySplitDotDot cr).length ≠ 2 →
      parse_commit_range resolve cr db de = Except.error ("Invalid commit range: " ++ cr)) := by
  refine ⟨fun resolve db de => by simp [parse_commit_range], ?_, ?_⟩
  · intro resolve cr db de msg h
    unfold parse_commit_range at h
    by_cases hcr : cr = ""
    · simp [hcr] at h
    · refine ⟨hcr, ?_⟩
      simp only [if_neg hcr] at h
      rcases hs : pySplitDotDot cr with _ | ⟨b, _ | ⟨r, _ | _⟩⟩ <;>
        simp [hs] at h <;>
        first
          | (exact h.symm)
          | (by_cases hb : resolve b <;> by_cases hr : resolve r <;>
              simp [hb, hr] at h <;> exact h.symm)
  · intro resolve cr db de hcr hlen
    unfold parse_commit_range
    simp only [if_neg hcr]
    rcases hs : pySplitDotDot cr with _ | ⟨b, _ | ⟨r, _ | _⟩⟩ <;>
      first
        | rfl
        | (exfalso; apply hlen; simp [hs])

/-- Witness for C10 at concrete inputs: empty range returns the (unresolvable)
defaults untouched; "a..b..c" does not split into two tokens and is rejected
with the invalid-range message; and an error implies a nonempty range. -/
theorem parse_commit_range_default_bypass_witness :
    parse_commit_range (fun _ => false) "" "nosuchbase" "nosuchresult" =
      Except.ok ("nosuchbase", "nosuchresult") ∧
    parse_commit_range (fun _ => true) "a..b..c" "x" "y" =
      Except.error "Invalid commit range: a..b..c" ∧
    ("a..b..c" ≠ "" ∧ "Invalid commit range: a..b..c" = "Invalid commit range: " ++ "a..b..c") := by
  refine ⟨parse_commit_range_default_bypass.1 (fun _ => false) "nosuchbase" "nosuchresult", ?_, ?_⟩
  · exact parse_commit_range_default_bypass.2.2 (fun _ => true) "a..b..c" "x" "y"
      (by decide) (by decide)
  · exact parse_commit_range_default_bypass.2.1 (fun _ => true) "a..b..c" "x" "y"
      "Invalid commit range: a..b..c"
      (parse_commit_range_default_bypass.2.2 (fun _ => true) "a..b..c" "x" "y"
        (by decide) (by decide))
